import Mathlib

/-!
# Verification of the stock-monitor bot core

Shallow embedding of the command-dispatch and report-assembly pipeline of the
stock-monitor Telegram bot: the ticker resolver (`ticker_resolver.py`), the
market-data gateway (`analyzer.py`), the social sentiment scorer
(`social_intelligence.py`), the user-state store (`utils.py`), and the
update loop / dispatcher (`bot_commands.py`).  External collaborators
(yfinance, Reddit, the Telegram HTTP API, SQLite) are modelled as explicit
parameters: a validation oracle, upstream-response values, and in-memory
table states.  Python dicts that may gain or lose keys are modelled as
association lists so that key presence is provable.
-/

namespace StockMonitor

/-! ## Python string primitives

Executable models of the Python `str` methods the bot uses, written over the
character list of a `String` so that concrete instances evaluate by `decide`. -/

/-- Python `str.upper()`. -/
def pyUpper (s : String) : String :=
  String.mk (s.data.map Char.toUpper)

/-- Python `str.strip()`: drop leading and trailing whitespace. -/
def pyStrip (s : String) : String :=
  String.mk (((s.data.dropWhile Char.isWhitespace).reverse.dropWhile
    Char.isWhitespace).reverse)

/-- Python `str.endswith(suf)`. -/
def pyEndsWith (s suf : String) : Bool :=
  List.isSuffixOf suf.data s.data

/-! ## Ticker resolver (`src/ticker_resolver.py`) -/

/-- The markets recognized by `TickerResolver.resolve_ticker`. -/
inductive Market where
  | US
  | NSE
  | BSE
deriving DecidableEq, Repr

/-- One value of the `self.cache` dict: `(resolved_ticker, market, timestamp)`.
Timestamps are seconds (`datetime.now()` is modelled at second granularity). -/
structure CacheEntry where
  resolved : String
  market : Market
  timestamp : Nat
deriving DecidableEq, Repr

/-- `self.cache`, a Python dict keyed by the normalized original ticker. -/
abbrev ResolverCache := List (String × CacheEntry)

/-- `self.cache_duration = timedelta(hours=24)`, in seconds. -/
def cacheDuration : Nat := 24 * 60 * 60

/-- Dict lookup `self.cache[ticker]`. -/
def cacheFind (c : ResolverCache) (k : String) : Option CacheEntry :=
  (c.find? (fun p => p.1 == k)).map (·.2)

/-- Dict assignment `self.cache[original_ticker] = ...` (`_cache_result`):
overwrites an existing key in place, else appends. -/
def cacheInsert (c : ResolverCache) (k : String) (v : CacheEntry) : ResolverCache :=
  if c.any (fun p => p.1 == k) then
    c.map (fun p => if p.1 == k then (k, v) else p)
  else
    c ++ [(k, v)]

/-- The cache probe at the top of `resolve_ticker`: a hit is returned only
while `datetime.now() - timestamp < self.cache_duration`. -/
def freshHit (c : ResolverCache) (now : Nat) (k : String) : Option CacheEntry :=
  match cacheFind c k with
  | some e => if now - e.timestamp < cacheDuration then some e else none
  | none => none

/-- Result of one `resolve_ticker` call: the returned pair, the cache after
the call, and the list of tickers passed to `_validate_ticker`, in order.
`_validate_ticker` itself (a yfinance probe) is abstracted as the oracle
`validate`. -/
structure ResolveOutcome where
  result : Option String × Option Market
  cache : ResolverCache
  validationCalls : List String
deriving DecidableEq, Repr

/-- The fall-through market cascade at the bottom of `resolve_ticker`:
try the ticker as a US listing, then with the `.NS` suffix, then with the
`.BO` suffix; the first validated candidate is cached and returned, else
`(None, None)` with the cache untouched.  `pre` holds validation calls
already made by the suffix section above the cascade. -/
def tryMarketOrder (validate : String → Bool) (cache : ResolverCache) (now : Nat)
    (ticker : String) (pre : List String) : ResolveOutcome :=
  if validate ticker then
    ⟨(some ticker, some .US), cacheInsert cache ticker ⟨ticker, .US, now⟩, pre ++ [ticker]⟩
  else
    let nse := ticker ++ ".NS"
    if validate nse then
      ⟨(some nse, some .NSE), cacheInsert cache ticker ⟨nse, .NSE, now⟩, pre ++ [ticker, nse]⟩
    else
      let bse := ticker ++ ".BO"
      if validate bse then
        ⟨(some bse, some .BSE), cacheInsert cache ticker ⟨bse, .BSE, now⟩,
          pre ++ [ticker, nse, bse]⟩
      else
        ⟨(none, none), cache, pre ++ [ticker, nse, bse]⟩

/-- `ticker = ticker.upper().strip()`, the first line of `resolve_ticker`;
also the key under which `_cache_result` stores a resolution. -/
def resolveKey (raw : String) : String := pyStrip (pyUpper raw)

/-- The body of `resolve_ticker` after normalization: serve an unexpired
cache entry, validate an explicit `.NS`/`.BO` suffix (falling through to the
market cascade when that validation fails), else run the US → NSE → BSE
cascade. -/
def resolveNorm (validate : String → Bool) (cache : ResolverCache) (now : Nat)
    (ticker : String) : ResolveOutcome :=
  match freshHit cache now ticker with
  | some e => ⟨(some e.resolved, some e.market), cache, []⟩
  | none =>
    if pyEndsWith ticker ".NS" then
      if validate ticker then
        ⟨(some ticker, some .NSE), cacheInsert cache ticker ⟨ticker, .NSE, now⟩, [ticker]⟩
      else tryMarketOrder validate cache now ticker [ticker]
    else if pyEndsWith ticker ".BO" then
      if validate ticker then
        ⟨(some ticker, some .BSE), cacheInsert cache ticker ⟨ticker, .BSE, now⟩, [ticker]⟩
      else tryMarketOrder validate cache now ticker [ticker]
    else
      tryMarketOrder validate cache now ticker []

/-- `TickerResolver.resolve_ticker`. -/
def resolveTicker (validate : String → Bool) (cache : ResolverCache) (now : Nat)
    (raw : String) : ResolveOutcome :=
  resolveNorm validate cache now (resolveKey raw)

/-! ## Update loop / dispatcher (`TelegramBotHandler`, `src/bot_commands.py`) -/

/-- One observable action of `check_and_handle_commands` on an inbound
update: assigning `self.last_update_id`, or handing the update to its
handler (callback query, voice note, command, or free text). -/
inductive LoopAction where
  | setOffset (n : Nat)
  | dispatch (n : Nat)
deriving DecidableEq, Repr

/-- The per-batch body of `check_and_handle_commands`: for each update in
order, `self.last_update_id = update['update_id']` runs first, and only then
is the update routed to a handler.  Returns the final `last_update_id` and
the trace of actions.  Updates are modelled by their `update_id`. -/
def checkAndHandle (lastUpdateId : Nat) (updates : List Nat) :
    Nat × List LoopAction :=
  updates.foldl
    (fun st u => (u, st.2 ++ [LoopAction.setOffset u, LoopAction.dispatch u]))
    (lastUpdateId, [])

/-- `get_updates`: a long-poll fetch with `offset = self.last_update_id + 1`;
the Telegram server returns the queued updates whose `update_id` is at least
that offset. -/
def getUpdates (server : List Nat) (lastUpdateId : Nat) : List Nat :=
  server.filter (fun u => lastUpdateId + 1 ≤ u)

/-! ## User-state store (`CacheDB`, `src/utils.py`)

SQLite is modelled in memory: the `users` and `usage_logs` tables as row
lists.  `user_id` values are the `str(user_id)` keys the code binds. -/

/-- One row of the `users` table (schema in `CacheDB._init_db`). -/
structure UserRow where
  userId : String
  username : String
  firstName : String
  riskProfile : String
  onboardingStep : Int
  interests : Option String
  lastSeen : Nat
  commandCount : Int
deriving DecidableEq, Repr

/-- One row of the `usage_logs` table: `(user_id, command, args)`. -/
structure UsageRow where
  userId : String
  command : String
  args : String
deriving DecidableEq, Repr

/-- The backing store, restricted to the tables the onboarding claims touch. -/
structure Db where
  users : List UserRow
  usageLogs : List UsageRow
deriving DecidableEq, Repr

/-- `CacheDB.log_user_command`: upsert the user row (`INSERT … ON CONFLICT
DO UPDATE` touches only `username`, `first_name`, `last_seen`,
`command_count`; a fresh row takes the schema defaults `risk_profile =
'Moderate'`, `onboarding_step = 0`, `interests = NULL`) and append a usage
log row. -/
def logUserCommand (db : Db) (uid username firstName command args : String)
    (now : Nat) : Db :=
  let users :=
    if db.users.any (fun r => r.userId == uid) then
      db.users.map (fun r =>
        if r.userId == uid then
          { r with username := username, firstName := firstName,
                   lastSeen := now, commandCount := r.commandCount + 1 }
        else r)
    else
      db.users ++ [⟨uid, username, firstName, "Moderate", 0, none, now, 1⟩]
  ⟨users, db.usageLogs ++ [⟨uid, command, args⟩]⟩

/-- `CacheDB.set_user_risk`: `UPDATE users SET risk_profile = ? WHERE
user_id = ?` — no insertion, and `True` is returned whether or not any row
matched. -/
def setUserRisk (db : Db) (uid risk : String) : Bool × Db :=
  (true,
    ⟨db.users.map (fun r => if r.userId == uid then { r with riskProfile := risk } else r),
      db.usageLogs⟩)

/-- `CacheDB.set_user_step`: `UPDATE users SET onboarding_step = ? WHERE
user_id = ?` — no insertion, `True` regardless of matches. -/
def setUserStep (db : Db) (uid : String) (step : Int) : Bool × Db :=
  (true,
    ⟨db.users.map (fun r => if r.userId == uid then { r with onboardingStep := step } else r),
      db.usageLogs⟩)

/-- `CacheDB.set_user_interests`: `UPDATE users SET interests = ? WHERE
user_id = ?`. -/
def setUserInterests (db : Db) (uid text : String) : Bool × Db :=
  (true,
    ⟨db.users.map (fun r => if r.userId == uid then { r with interests := some text } else r),
      db.usageLogs⟩)

/-- `CacheDB.get_user_risk`: the row's `risk_profile`, else `'Moderate'`. -/
def getUserRisk (db : Db) (uid : String) : String :=
  match db.users.find? (fun r => r.userId == uid) with
  | some r => r.riskProfile
  | none => "Moderate"

/-- The dict `get_user_state` returns: `{'step', 'interests', 'risk'}`. -/
structure UserState where
  step : Int
  interests : String
  risk : String
deriving DecidableEq, Repr

/-- `CacheDB.get_user_state`: the row's `(onboarding_step, interests or '',
risk_profile)`, else the defaults `(0, '', 'Moderate')`. -/
def getUserState (db : Db) (uid : String) : UserState :=
  match db.users.find? (fun r => r.userId == uid) with
  | some r => ⟨r.onboardingStep, r.interests.getD "", r.riskProfile⟩
  | none => ⟨0, "", "Moderate"⟩

/-! ## Onboarding handlers (`TelegramBotHandler`, `src/bot_commands.py`) -/

/-- The fixed risk choices offered by `handle_risk`'s inline keyboard
(`callback_data` of the three buttons, in row order). -/
def riskKeyboard : List String := ["setrisk:Degen", "setrisk:Moderate", "setrisk:Builder"]

/-- `handle_risk`: a prompt showing the caller's current risk profile plus
the fixed three-button keyboard.  The message is abbreviated to its variable
part (the current profile); the keyboard is modelled by its
`callback_data`. -/
def handleRisk (db : Db) (uid : String) : String × List String :=
  ("Your current profile is: " ++ getUserRisk db uid, riskKeyboard)

/-- `handle_start`: unconditionally `set_user_step(user_id, 1)`, then return
the welcome prompt together with `handle_risk`'s keyboard. -/
def handleStart (db : Db) (userId chatId : String) : Db × String × List String :=
  let db1 := (setUserStep db userId 1).2
  (db1, "Welcome: map your Financial DNA. What is your Risk Appetite?",
    (handleRisk db1 chatId).2)

/-- A `/start` command as `check_and_handle_commands` processes it:
`log_user_command` upserts the user row, then `process_command` routes
`/start` to `handle_start`. -/
def processStart (db : Db) (userId chatId username firstName : String)
    (now : Nat) : Db × String × List String :=
  handleStart (logUserCommand db userId username firstName "/start" "" now) userId chatId

/-! ## Interval configuration (`handle_set_interval`, `src/bot_commands.py`) -/

/-- The `monitoring` section of `config/stocks.json`. -/
structure Monitoring where
  checkIntervalMinutes : Int
  priceChangeThresholdPercent : Rat
deriving DecidableEq, Repr

/-- The configuration file, restricted to the section the handler edits. -/
structure Config where
  monitoring : Monitoring
deriving DecidableEq, Repr

/-- `handle_set_interval`.  The argument arrives as the outcome of Python's
`int(minutes)`: `none` models the `ValueError` of a non-numeric argument.
The first component is the reply text; the second is the configuration
written by `save_config`, with `none` meaning the file was not written.
`load_config` failure is the `none` config case; `save_config` itself is
modelled as succeeding. -/
def handleSetInterval (cfg : Option Config) (minutes : Option Int) :
    String × Option Config :=
  match cfg with
  | none => ("❌ Failed to load configuration", none)
  | some config =>
    match minutes with
    | none =>
      ("❌ Invalid number. Please provide minutes as a number (e.g., /interval 5)", none)
    | some m =>
      if m < 1 then ("❌ Interval must be at least 1 minute", none)
      else if m > 1440 then
        ("❌ Interval cannot exceed 24 hours (1440 minutes)", none)
      else
        ("✅ Check interval set to " ++ toString m ++
            " minutes\n\nChanges will take effect on next check cycle.",
          some { config with monitoring :=
            { config.monitoring with checkIntervalMinutes := m } })

/-! ## Social sentiment (`SocialIntelligence.get_reddit_sentiment`,
`shared/social_intelligence.py`) -/

/-- One entry of the `mentions` list built per matched Reddit post: the
bullish-keyword count, the bearish-keyword count, and the post's upvote
score.  (The code counts how many of the fixed keywords occur in the post's
title plus body.) -/
structure Mention where
  bullish : Nat
  bearish : Nat
  score : Int
deriving DecidableEq, Repr

/-- `total_bullish = sum(m['bullish'] * (1 + m['score']/10) for m in mentions)`. -/
def totalBullish (mentions : List Mention) : Rat :=
  (mentions.map (fun m => (m.bullish : Rat) * (1 + (m.score : Rat) / 10))).sum

/-- `total_bearish = sum(m['bearish'] * (1 + m['score']/10) for m in mentions)`. -/
def totalBearish (mentions : List Mention) : Rat :=
  (mentions.map (fun m => (m.bearish : Rat) * (1 + (m.score : Rat) / 10))).sum

/-- The `sentiment_score` computed by `get_reddit_sentiment`: `0` when no
post matched (the early return), `0` when the weighted totals sum to zero,
else `(total_bullish - total_bearish) / (total_bullish + total_bearish)`.
(The returned dict rounds this to two decimals for display.) -/
def sentimentScore (mentions : List Mention) : Rat :=
  if mentions = [] then 0
  else if totalBullish mentions + totalBearish mentions = 0 then 0
  else (totalBullish mentions - totalBearish mentions) /
    (totalBullish mentions + totalBearish mentions)

/-! ## Market data gateway (`StockAnalyzer`, `src/analyzer.py`)

yfinance responses are modelled as explicit upstream values; a `raises`
constructor stands for any exception inside the fetch's `try` block
(timeout, HTTP error, malformed payload).  Python dicts whose key sets vary
are association lists; numeric display strings keep their exact rational
value, tagged with the scale chosen by the formatter. -/

/-- A dict value in a gateway record: the `'N/A'` sentinel, a number tagged
with the scale chosen by `fmt` (`"B"` / `"M"` / plain two-decimal / the
`"%.1f%"` branch), a plain string, or an integer. -/
inductive Val where
  | na
  | billions (v : Rat)
  | millions (v : Rat)
  | plain (v : Rat)
  | pct (v : Rat)
  | str (s : String)
  | int (n : Int)
deriving DecidableEq, Repr

/-- The `fmt` helper of `get_basic_financials`: `'N/A'` for a missing value,
else multiply, then scale to billions above `1e9`, millions above `1e6`,
else keep the plain value (the percent branch applies when `is_pct` is set —
no current call site sets it). -/
def fmt (val : Option Rat) (multiplier : Rat) (isPct : Bool) : Val :=
  match val with
  | none => .na
  | some x =>
    let v := x * multiplier
    if isPct then .pct v
    else if v > 10 ^ 9 then .billions (v / 10 ^ 9)
    else if v > 10 ^ 6 then .millions (v / 10 ^ 6)
    else .plain v

/-- Python dict assignment `d[k] = v`: overwrite in place, else append. -/
def dictSet (d : List (String × Val)) (k : String) (v : Val) : List (String × Val) :=
  if d.any (fun p => p.1 == k) then
    d.map (fun p => if p.1 == k then (k, v) else p)
  else
    d ++ [(k, v)]

/-- Python `d.update({...})`: assign each pair in order. -/
def dictUpdate (d : List (String × Val)) (kvs : List (String × Val)) :
    List (String × Val) :=
  kvs.foldl (fun acc kv => dictSet acc kv.1 kv.2) d

/-- The fields `get_basic_financials` reads from `yf.Ticker(t).info`;
`none` models an absent key (`info.get(...)` returning `None`). -/
structure FinInfo where
  trailingPE : Option Rat
  marketCap : Option Rat
  fiftyTwoWeekHigh : Option Rat
  fiftyTwoWeekLow : Option Rat
  beta : Option Rat
  priceToSalesTrailing12Months : Option Rat
  profitMargins : Option Rat
  operatingMargins : Option Rat
  revenueGrowth : Option Rat
  earningsGrowth : Option Rat
  returnOnAssets : Option Rat
  debtToEquity : Option Rat
  averageVolume10days : Option Rat
  shortPercentOfFloat : Option Rat
  shortRatio : Option Rat
deriving DecidableEq, Repr

/-- Upstream of `get_basic_financials`: the info dict plus the earnings
calendar summary (`none` when the calendar is missing, empty, or its fetch
raised — `get_earnings_info` then answers `("Unknown", 999)`). -/
inductive FinUpstream where
  | raises
  | ok (info : FinInfo) (earnings : Option (String × Int))
deriving DecidableEq, Repr

/-- `get_earnings_info`: next earnings date and days until it. -/
def getEarningsInfo : Option (String × Int) → String × Int
  | none => ("Unknown", 999)
  | some e => e

/-- The `result` dict `get_basic_financials` initializes before its `try`
block — the value returned unchanged when the fetch raises. -/
def finSentinel : List (String × Val) :=
  [("pe_ratio", .na), ("market_cap", .na), ("52_week_high", .na),
   ("52_week_low", .na), ("beta", .na), ("ps_ratio", .na), ("net_margin", .na),
   ("operating_margin", .na), ("revenue_growth", .na), ("eps_growth", .na),
   ("roic", .na), ("debt_to_equity", .na), ("volume_avg_10d", .na)]

/-- `StockAnalyzer.get_basic_financials`: on success, `result.update(...)`
rewrites the 13 sentinel fields and adds `short_pct` / `short_ratio`, then
the two earnings keys are assigned; any exception returns the sentinel dict
as initialized so far. -/
def getBasicFinancials : FinUpstream → List (String × Val)
  | .raises => finSentinel
  | .ok info earnings =>
    let e := getEarningsInfo earnings
    dictSet
      (dictSet
        (dictUpdate finSentinel
          [("pe_ratio", fmt info.trailingPE 1 false),
           ("market_cap", fmt info.marketCap 1 false),
           ("52_week_high", fmt info.fiftyTwoWeekHigh 1 false),
           ("52_week_low", fmt info.fiftyTwoWeekLow 1 false),
           ("beta", fmt info.beta 1 false),
           ("ps_ratio", fmt info.priceToSalesTrailing12Months 1 false),
           ("net_margin", fmt info.profitMargins 100 false),
           ("operating_margin", fmt info.operatingMargins 100 false),
           ("revenue_growth", fmt info.revenueGrowth 100 false),
           ("eps_growth", fmt info.earningsGrowth 100 false),
           ("roic", fmt info.returnOnAssets 100 false),
           ("debt_to_equity", fmt info.debtToEquity 1 false),
           ("volume_avg_10d", fmt info.averageVolume10days 1 false),
           ("short_pct", fmt info.shortPercentOfFloat 100 false),
           ("short_ratio", fmt info.shortRatio 1 false)])
        "next_earnings" (.str e.1))
      "days_to_earnings" (.int e.2)

/-- The `info` fields `get_stock_quote` reads. -/
structure QuoteInfo where
  currentPrice : Option Rat
  previousClose : Option Rat
  dayHigh : Option Rat
  dayLow : Option Rat
  openPrice : Option Rat
deriving DecidableEq, Repr

/-- Upstream of `get_stock_quote`: the info dict and the closing prices of
the `period="2d"` fallback history. -/
inductive QuoteUpstream where
  | raises
  | ok (info : QuoteInfo) (hist2d : List Rat)
deriving DecidableEq, Repr

/-- The quote record `get_stock_quote` returns on success. -/
structure Quote where
  currentPrice : Rat
  change : Rat
  percentChange : Rat
  high : Rat
  low : Rat
  openPrice : Rat
  previousClose : Rat
deriving DecidableEq, Repr

/-- The tail of `get_stock_quote` once `curr` and `prev` are known:
`change = curr - prev`, `pct = change / prev * 100` guarded by Python's
falsy test on `prev`, and `dayHigh`/`dayLow`/`open` defaulting to `curr`. -/
def mkQuote (info : QuoteInfo) (curr prev : Rat) : Quote :=
  let change := curr - prev
  ⟨curr, change, if prev = 0 then 0 else change / prev * 100,
    info.dayHigh.getD curr, info.dayLow.getD curr, info.openPrice.getD curr, prev⟩

/-- `StockAnalyzer.get_stock_quote`: `None` when the fetch raises; when
`currentPrice` is present but `previousClose` is not, `curr - prev` raises
(`None - float`), caught into `None`; when `currentPrice` is absent the 2-day
history is the fallback, returning `None` on an empty frame, else last close
as `curr` and second-to-last (or `curr`) as `prev`. -/
def getStockQuote : QuoteUpstream → Option Quote
  | .raises => none
  | .ok info hist =>
    match info.currentPrice with
    | some curr =>
      match info.previousClose with
      | none => none
      | some prev => some (mkQuote info curr prev)
    | none =>
      match hist with
      | [] => none
      | c :: cs =>
        let curr := (c :: cs).getLast (List.cons_ne_nil c cs)
        let prev := if cs = [] then curr else (c :: cs).getD ((c :: cs).length - 2) 0
        some (mkQuote info curr prev)

/-- The `info` fields `get_company_profile` reads. -/
structure ProfInfo where
  longName : Option String
  industry : Option String
  sector : Option String
  longBusinessSummary : Option String
  website : Option String
deriving DecidableEq, Repr

/-- Upstream of `get_company_profile`. -/
inductive ProfUpstream where
  | raises
  | ok (info : ProfInfo)
deriving DecidableEq, Repr

/-- `StockAnalyzer.get_company_profile`: a five-field dict with per-field
defaults on success, but the bare empty dict `{}` when the fetch raises. -/
def getCompanyProfile (ticker : String) : ProfUpstream → List (String × Val)
  | .raises => []
  | .ok info =>
    [("name", .str (info.longName.getD ticker)),
     ("finnhubIndustry", .str (info.industry.getD "N/A")),
     ("sector", .str (info.sector.getD "N/A")),
     ("description", .str (info.longBusinessSummary.getD "N/A")),
     ("website", .str (info.website.getD "N/A"))]

/-- The `perf` dict of `get_performance_metrics`; `none` is the `'N/A'`
sentinel (`'5d_pct'`, `'1m_pct'`, `'curr_vol'`). -/
structure PerfMetrics where
  fiveDayPct : Option Rat
  oneMonthPct : Option Rat
  currVol : Option Rat
deriving DecidableEq, Repr

/-- Upstream of `get_performance_metrics`: the `(Close, Volume)` rows of the
`period="1mo"` daily history, oldest first. -/
inductive HistUpstream where
  | raises
  | ok (rows : List (Rat × Rat))
deriving DecidableEq, Repr

/-- The sentinel `perf` dict initialized before the `try` block. -/
def perfSentinel : PerfMetrics := ⟨none, none, none⟩

/-- `StockAnalyzer.get_performance_metrics`: sentinel on an exception or a
frame with fewer than 2 rows; else the 5-day return from `closes[-6]` when
at least 6 samples exist (otherwise it stays `'N/A'`), the 1-month return
from `closes[0]`, and the last volume. -/
def getPerformanceMetrics : HistUpstream → PerfMetrics
  | .raises => perfSentinel
  | .ok rows =>
    if rows.length < 2 then perfSentinel
    else
      let closes := rows.map Prod.fst
      let vols := rows.map Prod.snd
      let currPrice := closes.getLastD 0
      ⟨if 6 ≤ closes.length then
          some ((currPrice / closes.getD (closes.length - 6) 0 - 1) * 100)
        else none,
       some ((currPrice / closes.headD 0 - 1) * 100),
       some (vols.getLastD 0)⟩

/-- One formatted entry of `recent_insider_trades`. -/
structure InsiderTrade where
  date : String
  tradeType : String
  shares : Rat
deriving DecidableEq, Repr

/-- The `intel` dict of `get_alpha_intelligence`. -/
structure AlphaIntel where
  insiderHeld : Val
  instHeld : Val
  topHolders : List (String × Rat)
  recentInsiderTrades : List InsiderTrade
deriving DecidableEq, Repr

/-- Upstream of `get_alpha_intelligence`: the two `major_holders`
percentages (`none` when the row or its value is absent/null), the
institutional-holder rows `(Holder, pctChange)`, and the insider-transaction
rows `(Start Date, Text or null, Shares)`. -/
inductive OwnershipUpstream where
  | raises
  | ok (insidersPct : Option Rat) (institutionsPct : Option Rat)
      (instHolders : List (String × Rat))
      (insiderRows : List (String × Option String × Rat))
deriving DecidableEq, Repr

/-- The sentinel `intel` dict initialized before the `try` block. -/
def alphaSentinel : AlphaIntel := ⟨.na, .na, [], []⟩

/-- `StockAnalyzer.get_alpha_intelligence`: sentinel on an exception; else
the held percentages scaled by 100 (the `"%.1f%"` rendering keeps the exact
value here), the first three institutional holders, and the first three
insider rows with a null `Text` defaulting to `"Trade"`.  (The 15-character
holder-name truncation is display formatting, kept as the raw name.) -/
def getAlphaIntelligence : OwnershipUpstream → AlphaIntel
  | .raises => alphaSentinel
  | .ok insidersPct institutionsPct instHolders insiderRows =>
    ⟨(match insidersPct with | some v => .pct (v * 100) | none => .na),
     (match institutionsPct with | some v => .pct (v * 100) | none => .na),
     (instHolders.take 3).map (fun h => (h.1, h.2 * 100)),
     (insiderRows.take 3).map (fun row => ⟨row.1, row.2.1.getD "Trade", row.2.2⟩)⟩

/-- Modelled from the spec: the 5-day reference price the claim describes —
`closes[-6]`, "or the oldest available sample if fewer than 6 samples
exist", i.e. index `max(len - 6, 0)`, which truncated subtraction gives
directly. -/
def specFiveDayReturn (closes : List Rat) : Rat :=
  (closes.getLastD 0 / closes.getD (closes.length - 6) 0 - 1) * 100

/-! ## Deep-report pipeline (`handle_analyse` / market-selection callback,
`src/bot_commands.py`)

The claim here is temporal — which external components run, on what
arguments, in what order — so `handle_analyse` is modelled by its trace of
external calls plus the kind of reply it produces.  (The report-string
assembly, the cache read of the user's risk profile, and the LLM call that
follow the fetches are not external data-provider queries and are outside
the trace.)  Note `bot_commands.py` never imports `TickerResolver`. -/

/-- The provider fetches `handle_analyse` performs, in source order. -/
inductive FetchOp where
  | basicFinancials
  | stockQuote
  | companyProfile
  | companyNews
  | performanceMetrics
  | alphaIntel
deriving DecidableEq, Repr

/-- One external call of the deep-report pipeline: a
`TickerResolver.resolve_ticker` invocation or a data-provider fetch. -/
inductive AnalyseCall where
  | resolverCall (symbol : String)
  | gatewayCall (op : FetchOp) (ticker : String)
deriving DecidableEq, Repr

/-- Whether a call is a Ticker Resolver invocation. -/
def isResolverCall : AnalyseCall → Bool
  | .resolverCall _ => true
  | .gatewayCall _ _ => false

/-- What `handle_analyse` replies with: the market-selection keyboard (for a
bare ticker), or the assembled report. -/
inductive AnalyseReply where
  | marketPrompt (ticker : String) (keyboard : List String)
  | report (ticker : String)
deriving DecidableEq, Repr

/-- `TelegramBotHandler.handle_analyse`: normalize with `upper().strip()`;
without the skip flag, a ticker carrying neither `.NS` nor `.BO` gets the
market-selection keyboard and nothing is fetched; otherwise the six provider
fetches run directly on the given ticker, in source order, and the report is
assembled.  No path invokes the Ticker Resolver. -/
def handleAnalyse (rawTicker : String) (skipMarketCheck : Bool) :
    List AnalyseCall × AnalyseReply :=
  let ticker := pyStrip (pyUpper rawTicker)
  if !skipMarketCheck &&
      !(pyEndsWith ticker ".NS" || pyEndsWith ticker ".BO") then
    ([], .marketPrompt ticker ["market:NSE:" ++ ticker, "market:US:" ++ ticker])
  else
    ([.gatewayCall .basicFinancials ticker, .gatewayCall .stockQuote ticker,
      .gatewayCall .companyProfile ticker, .gatewayCall .companyNews ticker,
      .gatewayCall .performanceMetrics ticker, .gatewayCall .alphaIntel ticker],
     .report ticker)

/-- The ticker the `market:MARKET:TICKER` callback builds before re-invoking
`handle_analyse`: `.NS` appended for NSE, `.BO` for BSE, the bare ticker for
US. -/
def marketCallbackTicker (market baseTicker : String) : String :=
  if market == "NSE" then baseTicker ++ ".NS"
  else if market == "BSE" then baseTicker ++ ".BO"
  else baseTicker

/-- The market-selection branch of `handle_callback_query`: re-run
`handle_analyse` on the suffixed ticker with `skip_market_check=True`. -/
def handleMarketCallback (market baseTicker : String) :
    List AnalyseCall × AnalyseReply :=
  handleAnalyse (marketCallbackTicker market baseTicker) true

/-! ## Lemmas and claim theorems -/

/-! ### Resolver lemmas -/

theorem cacheFind_cacheInsert_self (c : ResolverCache) (k : String) (v : CacheEntry) :
    cacheFind (cacheInsert c k v) k = some v := by
  unfold cacheInsert
  split
  · rename_i hany
    induction c with
    | nil => simp at hany
    | cons a tl ih =>
      by_cases ha : a.1 == k
      · simp [cacheFind, List.find?, ha]
      · simp only [List.any_cons, ha, Bool.false_or] at hany
        simpa [cacheFind, List.find?, ha] using ih hany
  · rename_i hany
    induction c with
    | nil => simp [cacheFind, List.find?]
    | cons a tl ih =>
      simp only [List.any_cons, Bool.or_eq_true, not_or] at hany
      have ha : (a.1 == k) = false := by
        cases h : a.1 == k
        · rfl
        · exact absurd h hany.1
      simp only [List.cons_append]
      simpa [cacheFind, List.find?, ha] using ih (by simpa using hany.2)

theorem freshHit_cacheInsert_self (c : ResolverCache) (k : String) (r : String)
    (m : Market) (t0 t1 : Nat) :
    freshHit (cacheInsert c k ⟨r, m, t0⟩) t1 k =
      if t1 - t0 < cacheDuration then some ⟨r, m, t0⟩ else none := by
  unfold freshHit
  rw [cacheFind_cacheInsert_self]

theorem tryMarketOrder_calls_ne_nil (validate : String → Bool) (c : ResolverCache)
    (now : Nat) (t : String) (pre : List String) :
    (tryMarketOrder validate c now t pre).validationCalls ≠ [] := by
  by_cases h1 : validate t <;> by_cases h2 : validate (t ++ ".NS") <;>
    by_cases h3 : validate (t ++ ".BO") <;> simp [tryMarketOrder, h1, h2, h3]

theorem resolveNorm_hit (validate : String → Bool) (c : ResolverCache) (now : Nat)
    (t : String) (e : CacheEntry) (hhit : freshHit c now t = some e) :
    resolveNorm validate c now t = ⟨(some e.resolved, some e.market), c, []⟩ := by
  unfold resolveNorm
  rw [hhit]

theorem resolveNorm_miss_eq (validate : String → Bool) (c : ResolverCache)
    (now : Nat) (t : String) (hmiss : freshHit c now t = none) :
    resolveNorm validate c now t =
      (if pyEndsWith t ".NS" then
        (if validate t then
          ⟨(some t, some .NSE), cacheInsert c t ⟨t, .NSE, now⟩, [t]⟩
         else tryMarketOrder validate c now t [t])
       else if pyEndsWith t ".BO" then
        (if validate t then
          ⟨(some t, some .BSE), cacheInsert c t ⟨t, .BSE, now⟩, [t]⟩
         else tryMarketOrder validate c now t [t])
       else tryMarketOrder validate c now t []) := by
  unfold resolveNorm
  rw [hmiss]

theorem resolveNorm_calls_ne_nil (validate : String → Bool) (c : ResolverCache)
    (now : Nat) (t : String) (hmiss : freshHit c now t = none) :
    (resolveNorm validate c now t).validationCalls ≠ [] := by
  rw [resolveNorm_miss_eq validate c now t hmiss]
  by_cases h1 : pyEndsWith t ".NS" <;> by_cases h2 : pyEndsWith t ".BO" <;>
    by_cases h3 : validate t <;>
    simp [h1, h2, h3, tryMarketOrder_calls_ne_nil]

theorem resolveNorm_success_cache (validate : String → Bool) (c : ResolverCache)
    (now : Nat) (t : String) (r : String) (m : Market)
    (hmiss : freshHit c now t = none)
    (h : (resolveNorm validate c now t).result = (some r, some m)) :
    (resolveNorm validate c now t).cache = cacheInsert c t ⟨r, m, now⟩ := by
  rw [resolveNorm_miss_eq validate c now t hmiss] at h ⊢
  by_cases h1 : pyEndsWith t ".NS" <;> by_cases h2 : pyEndsWith t ".BO" <;>
    by_cases h3 : validate t <;> by_cases h4 : validate (t ++ ".NS") <;>
    by_cases h5 : validate (t ++ ".BO") <;>
    simp_all [tryMarketOrder]

theorem resolveNorm_fail_cache (validate : String → Bool) (c : ResolverCache)
    (now : Nat) (t : String)
    (h : (resolveNorm validate c now t).result = (none, none)) :
    (resolveNorm validate c now t).cache = c := by
  cases hfh : freshHit c now t with
  | some e => rw [resolveNorm_hit validate c now t e hfh] at h; simp at h
  | none =>
    rw [resolveNorm_miss_eq validate c now t hfh] at h ⊢
    by_cases h1 : pyEndsWith t ".NS" <;> by_cases h2 : pyEndsWith t ".BO" <;>
      by_cases h3 : validate t <;> by_cases h4 : validate (t ++ ".NS") <;>
      by_cases h5 : validate (t ++ ".BO") <;>
      simp_all [tryMarketOrder]

theorem resolveNorm_miss_of_calls_ne_nil (validate : String → Bool)
    (c : ResolverCache) (now : Nat) (t : String)
    (h : (resolveNorm validate c now t).validationCalls ≠ []) :
    freshHit c now t = none := by
  cases hfh : freshHit c now t with
  | some e => rw [resolveNorm_hit validate c now t e hfh] at h; simp at h
  | none => rfl

/-- **C3**: for a normalized, suffix-free symbol not served from the cache,
`resolve_ticker` validates the bare symbol as US, then `.NS`, then `.BO`, in
that order; the first confirmed candidate wins (US beats NSE for a symbol
valid in both), and with no confirmation the result is `(None, None)`. -/
theorem resolve_market_priority (validate : String → Bool) (cache : ResolverCache)
    (now : Nat) (t : String) (hnorm : resolveKey t = t)
    (hns : pyEndsWith t ".NS" = false) (hbo : pyEndsWith t ".BO" = false)
    (hmiss : freshHit cache now t = none) :
    (resolveTicker validate cache now t).result =
      (if validate t then (some t, some Market.US)
       else if validate (t ++ ".NS") then (some (t ++ ".NS"), some Market.NSE)
       else if validate (t ++ ".BO") then (some (t ++ ".BO"), some Market.BSE)
       else (none, none)) ∧
    (resolveTicker validate cache now t).validationCalls =
      [t] ++ (if validate t then []
              else [t ++ ".NS"] ++ (if validate (t ++ ".NS") then [] else [t ++ ".BO"])) := by
  unfold resolveTicker
  rw [hnorm]
  unfold resolveNorm
  rw [hmiss, hns, hbo]
  unfold tryMarketOrder
  by_cases h1 : validate t <;> by_cases h2 : validate (t ++ ".NS") <;>
    by_cases h3 : validate (t ++ ".BO") <;> simp [h1, h2, h3]

/-- **C3 witness**: with a provider that confirms both `AAPL` (US) and
`AAPL.NS` (NSE), resolution returns the US tuple. -/
theorem resolve_market_priority_witness :
    (resolveTicker (fun s => s == "AAPL" || s == "AAPL.NS") [] 0 "AAPL").result =
      (some "AAPL", some Market.US) :=
  (resolve_market_priority (fun s => s == "AAPL" || s == "AAPL.NS") [] 0 "AAPL"
    (by decide) (by decide) (by decide) (by decide)).1.trans (by decide)

/-- **C4 counterexample**: a "successful resolution" can itself be served from
the cache, which does not refresh the entry's timestamp.  Starting from an
empty cache: a validated resolution at `t = 0` caches `AAPL`; a second call at
`t = 86399` succeeds from the cache (no validation); a third call at
`t = 86401` — just 2 seconds (< 24 h) after that successful resolution — finds
the entry expired and performs a fresh provider validation, contrary to the
claim that any call less than 24 hours after a successful resolution makes no
provider validation call. -/
theorem resolver_idempotence_cx :
    (resolveTicker (fun s => s == "AAPL") [] 0 "AAPL").cache =
      [("AAPL", ⟨"AAPL", Market.US, 0⟩)] ∧
    resolveTicker (fun s => s == "AAPL") [("AAPL", ⟨"AAPL", Market.US, 0⟩)]
        86399 "AAPL" =
      ⟨(some "AAPL", some Market.US), [("AAPL", ⟨"AAPL", Market.US, 0⟩)], []⟩ ∧
    86401 - 86399 < cacheDuration ∧
    (resolveTicker (fun s => s == "AAPL") [("AAPL", ⟨"AAPL", Market.US, 0⟩)]
        86401 "AAPL").validationCalls = ["AAPL"] := by
  decide

/-- **C4 (amended)**: after a resolution of `s` that performed provider
validation and succeeded (thereby writing the cache entry), a second call
less than 24 hours later returns the identical tuple with the cache unchanged
and no provider validation call; once the entry is 24 hours old it is treated
as absent and a fresh provider validation is performed; and a resolution that
fails never changes the cache. -/
theorem resolver_cache_reuse (v v' : String → Bool) (c : ResolverCache)
    (t0 t1 : Nat) (s r : String) (m : Market) (c1 : ResolverCache)
    (calls : List String)
    (hrun : resolveTicker v c t0 s = ⟨(some r, some m), c1, calls⟩)
    (hprov : calls ≠ []) :
    (t1 - t0 < cacheDuration →
        resolveTicker v' c1 t1 s = ⟨(some r, some m), c1, []⟩) ∧
    (cacheDuration ≤ t1 - t0 →
        (resolveTicker v' c1 t1 s).validationCalls ≠ []) ∧
    (∀ (v2 : String → Bool) (c2 : ResolverCache) (n2 : Nat) (s2 : String),
        (resolveTicker v2 c2 n2 s2).result = (none, none) →
        (resolveTicker v2 c2 n2 s2).cache = c2) := by
  have hcalls : (resolveNorm v c t0 (resolveKey s)).validationCalls ≠ [] := by
    rw [show resolveNorm v c t0 (resolveKey s) = resolveTicker v c t0 s from rfl, hrun]
    exact hprov
  have hmiss := resolveNorm_miss_of_calls_ne_nil v c t0 (resolveKey s) hcalls
  have hres : (resolveNorm v c t0 (resolveKey s)).result = (some r, some m) := by
    rw [show resolveNorm v c t0 (resolveKey s) = resolveTicker v c t0 s from rfl, hrun]
  have hc1 : c1 = cacheInsert c (resolveKey s) ⟨r, m, t0⟩ := by
    have := resolveNorm_success_cache v c t0 (resolveKey s) r m hmiss hres
    rw [show resolveNorm v c t0 (resolveKey s) = resolveTicker v c t0 s from rfl, hrun] at this
    exact this
  refine ⟨fun hfresh => ?_, fun hstale => ?_, fun v2 c2 n2 s2 hf => ?_⟩
  · have hhit : freshHit c1 t1 (resolveKey s) = some ⟨r, m, t0⟩ := by
      rw [hc1, freshHit_cacheInsert_self, if_pos hfresh]
    exact resolveNorm_hit v' c1 t1 (resolveKey s) ⟨r, m, t0⟩ hhit
  · have hmiss2 : freshHit c1 t1 (resolveKey s) = none := by
      rw [hc1, freshHit_cacheInsert_self, if_neg (by omega)]
    exact resolveNorm_calls_ne_nil v' c1 t1 (resolveKey s) hmiss2
  · exact resolveNorm_fail_cache v2 c2 n2 (resolveKey s2) hf

/-- **C4 witness**: a fresh validated resolution of `AAPL` at `t = 0` is
served from the cache 100 seconds later, even by a provider that now rejects
everything, with no validation call and identical result. -/
theorem resolver_cache_reuse_witness :
    resolveTicker (fun _ => false) [("AAPL", ⟨"AAPL", Market.US, 0⟩)] 100 "AAPL" =
      ⟨(some "AAPL", some Market.US), [("AAPL", ⟨"AAPL", Market.US, 0⟩)], []⟩ :=
  (resolver_cache_reuse (fun s => s == "AAPL") (fun _ => false) [] 0 100 "AAPL"
    "AAPL" Market.US [("AAPL", ⟨"AAPL", Market.US, 0⟩)] ["AAPL"]
    (by decide) (by decide)).1 (by decide)

theorem checkAndHandle_foldl_fst (updates : List Nat) :
    ∀ (lastId : Nat) (acc : List LoopAction),
      (updates.foldl
        (fun st u => (u, st.2 ++ [LoopAction.setOffset u, LoopAction.dispatch u]))
        (lastId, acc)).1 = updates.getLastD lastId := by
  induction updates with
  | nil => intro lastId acc; rfl
  | cons a tl ih =>
    intro lastId acc
    rw [List.foldl_cons, List.getLastD_cons]
    exact ih a _

theorem checkAndHandle_foldl_snd (updates : List Nat) :
    ∀ (lastId : Nat) (acc : List LoopAction),
      (updates.foldl
        (fun st u => (u, st.2 ++ [LoopAction.setOffset u, LoopAction.dispatch u]))
        (lastId, acc)).2 =
      acc ++ updates.flatMap (fun u => [LoopAction.setOffset u, LoopAction.dispatch u]) := by
  induction updates with
  | nil => intro lastId acc; simp
  | cons a tl ih =>
    intro lastId acc
    rw [List.foldl_cons, List.flatMap_cons, ih]
    simp

theorem le_getLastD_of_chain (l : List Nat) (hl : l.Chain' (· < ·)) :
    ∀ (d : Nat), ∀ u ∈ l, u ≤ l.getLastD d := by
  induction l with
  | nil => simp
  | cons a tl ih =>
    intro d u hu
    rw [List.getLastD_cons]
    rcases List.mem_cons.mp hu with rfl | hu2
    · cases tl with
      | nil => simp
      | cons b tl2 =>
        have hab : u < b := (List.chain'_cons.mp hl).1
        have hb : b ≤ (b :: tl2).getLastD u :=
          ih (List.chain'_cons.mp hl).2 u b (List.mem_cons_self b tl2)
        omega
    · exact ih hl.tail a u hu2

/-- **C2**: processing a nonempty batch of strictly increasing update ids
`s1 < … < sN` advances the stored offset to each id before dispatching that
update (the trace is exactly `setOffset s1, dispatch s1, …, setOffset sN,
dispatch sN`); afterwards the stored offset is `sN`, and the next
`get_updates` fetch — which requests ids from `sN + 1` — returns none of the
batch's updates, whatever the server still holds. -/
theorem dispatcher_offset_monotonic (lastId : Nat) (batch : List Nat)
    (hne : batch ≠ []) (hinc : batch.Chain' (· < ·)) :
    (checkAndHandle lastId batch).1 = batch.getLast hne ∧
    (checkAndHandle lastId batch).2 =
      batch.flatMap (fun u => [LoopAction.setOffset u, LoopAction.dispatch u]) ∧
    ∀ (server : List Nat), ∀ u ∈ batch,
      u ∉ getUpdates server (checkAndHandle lastId batch).1 := by
  have hfst : (checkAndHandle lastId batch).1 = batch.getLastD lastId :=
    checkAndHandle_foldl_fst batch lastId []
  refine ⟨?_, ?_, ?_⟩
  · rw [hfst, List.getLastD_eq_getLast?, List.getLast?_eq_getLast batch hne]
    rfl
  · simpa using checkAndHandle_foldl_snd batch lastId []
  · intro server u hu
    have hle : u ≤ batch.getLastD lastId := le_getLastD_of_chain batch hinc lastId u hu
    rw [hfst]
    simp only [getUpdates, List.mem_filter, decide_eq_true_eq, not_and]
    intro _
    omega

/-- **C2 witness**: the batch `[5, 7, 9]` leaves the offset at `9`, and a
refetch from a server still holding those updates returns none of them. -/
theorem dispatcher_offset_monotonic_witness :
    (checkAndHandle 0 [5, 7, 9]).1 = 9 ∧
    7 ∉ getUpdates [1, 5, 7, 9, 12] (checkAndHandle 0 [5, 7, 9]).1 := by
  have h := dispatcher_offset_monotonic 0 [5, 7, 9] (by decide) (by simp)
  exact ⟨h.1.trans (by decide), h.2.2 [1, 5, 7, 9, 12] 7 (by decide)⟩

theorem any_map_touch (l : List UserRow) (uid : String) (f : UserRow → UserRow)
    (hf : ∀ r, (f r).userId = r.userId)
    (h : l.any (fun r => r.userId == uid) = true) :
    (l.map (fun r => if r.userId == uid then f r else r)).any
      (fun r => r.userId == uid) = true := by
  induction l with
  | nil => simp at h
  | cons a tl ih =>
    rw [List.any_cons, Bool.or_eq_true] at h
    rw [List.map_cons, List.any_cons, Bool.or_eq_true]
    by_cases ha : (a.userId == uid) = true
    · left
      show ((if (a.userId == uid) = true then f a else a).userId == uid) = true
      rw [if_pos ha, hf]
      exact ha
    · right
      exact ih (h.resolve_left ha)

theorem any_users_logUserCommand (db : Db) (uid username firstName command args : String)
    (now : Nat) :
    ((logUserCommand db uid username firstName command args now).users.any
      (fun r => r.userId == uid)) = true := by
  unfold logUserCommand
  dsimp only
  by_cases hany : (db.users.any (fun r => r.userId == uid)) = true
  · rw [if_pos hany]
    exact any_map_touch db.users uid
      (fun r => { r with username := username, firstName := firstName,
                         lastSeen := now, commandCount := r.commandCount + 1 })
      (fun r => rfl) hany
  · rw [if_neg hany, List.any_append]
    simp

theorem find?_map_set_step (l : List UserRow) (uid : String) (n : Int)
    (hex : l.any (fun r => r.userId == uid) = true) :
    ((l.map (fun r => if r.userId == uid then { r with onboardingStep := n } else r)).find?
      (fun r => r.userId == uid)).map (fun r => r.onboardingStep) = some n := by
  induction l with
  | nil => simp at hex
  | cons a tl ih =>
    rw [List.any_cons, Bool.or_eq_true] at hex
    rw [List.map_cons]
    by_cases ha : (a.userId == uid) = true
    · rw [if_pos ha, List.find?_cons_of_pos]
      · rfl
      · show ((⟨a.userId, a.username, a.firstName, a.riskProfile, n, a.interests,
          a.lastSeen, a.commandCount⟩ : UserRow).userId == uid) = true
        exact ha
    · rw [if_neg ha, List.find?_cons_of_neg]
      · exact ih (hex.resolve_left ha)
      · exact ha

theorem getUserState_setUserStep_of_mem (db : Db) (uid : String) (n : Int)
    (hex : db.users.any (fun r => r.userId == uid) = true) :
    (getUserState (setUserStep db uid n).2 uid).step = n := by
  unfold getUserState setUserStep
  dsimp only
  have hstep := find?_map_set_step db.users uid n hex
  cases hfind : (db.users.map
      (fun r => if r.userId == uid then { r with onboardingStep := n } else r)).find?
      (fun r => r.userId == uid) with
  | none => rw [hfind] at hstep; simp at hstep
  | some r =>
    rw [hfind] at hstep
    show r.onboardingStep = n
    simpa using hstep

/-- **C7**: processing `/start` (which first upserts the user row via
`log_user_command`, then runs `handle_start`) always sets the user's
onboarding step to `AWAITING_RISK = 1` — whatever the step was before, so a
second consecutive `/start` overwrites rather than blocks — and replies with
the risk-selection prompt carrying the fixed three choices. -/
theorem start_resets_onboarding (db : Db) (userId chatId username firstName : String)
    (now : Nat) :
    (getUserState (processStart db userId chatId username firstName now).1 userId).step = 1 ∧
    (processStart db userId chatId username firstName now).2.2 = riskKeyboard := by
  constructor
  · exact getUserState_setUserStep_of_mem _ userId 1
      (any_users_logUserCommand db userId username firstName "/start" "" now)
  · rfl

/-- **C10**: for a `user_id` with no row, `set_user_risk` and
`set_user_step` return `True` while changing nothing (they issue a bare SQL
`UPDATE`), and `get_user_state` still answers the defaults
`(step 0, interests '', risk 'Moderate')`. -/
theorem map_noop_of_absent (l : List UserRow) (uid : String) (f : UserRow → UserRow)
    (habs : ∀ r ∈ l, r.userId ≠ uid) :
    l.map (fun r => if r.userId == uid then f r else r) = l := by
  induction l with
  | nil => rfl
  | cons a tl ih =>
    rw [List.map_cons, if_neg (by simpa using habs a (List.mem_cons_self a tl)),
      ih (fun r hr => habs r (List.mem_cons_of_mem a hr))]

theorem absent_user_update_noop (db : Db) (uid risk : String) (n : Int)
    (habs : ∀ r ∈ db.users, r.userId ≠ uid) :
    setUserRisk db uid risk = (true, db) ∧
    setUserStep db uid n = (true, db) ∧
    getUserState db uid = ⟨0, "", "Moderate"⟩ := by
  have hmap : ∀ (f : UserRow → UserRow),
      db.users.map (fun r => if r.userId == uid then f r else r) = db.users :=
    fun f => map_noop_of_absent db.users uid f habs
  have hfind : db.users.find? (fun r => r.userId == uid) = none := by
    rw [List.find?_eq_none]
    intro r hr
    simpa using habs r hr
  refine ⟨?_, ?_, ?_⟩
  · unfold setUserRisk
    rw [hmap]
  · unfold setUserStep
    rw [hmap]
  · unfold getUserState
    rw [hfind]

/-- **C10 witness**: on an empty store, updating risk and step for user
`"42"` changes nothing and the state read back is the default triple. -/
theorem absent_user_update_noop_witness :
    setUserRisk ⟨[], []⟩ "42" "Degen" = (true, ⟨[], []⟩) ∧
    setUserStep ⟨[], []⟩ "42" 1 = (true, ⟨[], []⟩) ∧
    getUserState ⟨[], []⟩ "42" = ⟨0, "", "Moderate"⟩ :=
  absent_user_update_noop ⟨[], []⟩ "42" "Degen" 1 (by simp)

/-- **C9**: a non-numeric argument, an interval below 1, or one above 1440
each yield the corresponding error reply and leave the configuration file
unwritten (so `check_interval_minutes` is unchanged); every integer in
`[1, 1440]` is saved verbatim as `check_interval_minutes`. -/
theorem interval_validation (config : Config) :
    handleSetInterval (some config) none =
      ("❌ Invalid number. Please provide minutes as a number (e.g., /interval 5)", none) ∧
    (∀ n : Int, n < 1 → handleSetInterval (some config) (some n) =
      ("❌ Interval must be at least 1 minute", none)) ∧
    (∀ n : Int, 1440 < n → handleSetInterval (some config) (some n) =
      ("❌ Interval cannot exceed 24 hours (1440 minutes)", none)) ∧
    (∀ n : Int, 1 ≤ n → n ≤ 1440 →
      ((handleSetInterval (some config) (some n)).2).map
        (fun c => c.monitoring.checkIntervalMinutes) = some n) := by
  refine ⟨rfl, fun n hn => ?_, fun n hn => ?_, fun n h1 h2 => ?_⟩
  · simp [handleSetInterval, hn]
  · have h1 : ¬ n < 1 := by omega
    simp [handleSetInterval, h1, hn]
  · have h3 : ¬ n < 1 := by omega
    have h4 : ¬ n > 1440 := by omega
    simp [handleSetInterval, h3, h4]

/-- **C9 witness**: `2000` is rejected without a write; `30` is saved as the
interval. -/
theorem interval_validation_witness :
    (handleSetInterval (some ⟨⟨15, 1/2⟩⟩) (some 2000)).2 = none ∧
    ((handleSetInterval (some ⟨⟨15, 1/2⟩⟩) (some 30)).2).map
      (fun c => c.monitoring.checkIntervalMinutes) = some 30 := by
  have h := interval_validation ⟨⟨15, 1/2⟩⟩
  exact ⟨by rw [h.2.2.1 2000 (by norm_num)], h.2.2.2 30 (by norm_num) (by norm_num)⟩

/-- **C8**: with each matched post contributing its bullish and bearish
keyword counts weighted by `1 + upvote_score / 10`, the aggregate sentiment
score is `(total_bullish - total_bearish) / (total_bullish + total_bearish)`
whenever that denominator is nonzero, and `0` whenever both weighted totals
are zero. -/
theorem sentiment_score_formula (mentions : List Mention) :
    (totalBullish mentions + totalBearish mentions ≠ 0 →
      sentimentScore mentions =
        (totalBullish mentions - totalBearish mentions) /
          (totalBullish mentions + totalBearish mentions)) ∧
    (totalBullish mentions = 0 → totalBearish mentions = 0 →
      sentimentScore mentions = 0) := by
  constructor
  · intro hsum
    have hne : mentions ≠ [] := by
      intro h
      apply hsum
      rw [h]
      simp [totalBullish, totalBearish]
    rw [sentimentScore, if_neg hne, if_neg hsum]
  · intro hb hbr
    rw [sentimentScore]
    by_cases hne : mentions = []
    · rw [if_pos hne]
    · rw [if_neg hne, if_pos (by rw [hb, hbr]; norm_num)]

/-- **C8 witness**: two matched posts — one with 3 bullish hits and 10
upvotes, one with 1 bearish hit and 0 upvotes — score
`(6 - 1) / (6 + 1) = 5/7`. -/
theorem sentiment_score_formula_witness :
    sentimentScore [⟨3, 0, 10⟩, ⟨0, 1, 0⟩] = 5 / 7 := by
  have h := (sentiment_score_formula [⟨3, 0, 10⟩, ⟨0, 1, 0⟩]).1
    (by norm_num [totalBullish, totalBearish])
  rw [h]
  norm_num [totalBullish, totalBearish]

/-- **C1 counterexample**: when every upstream call fails, `get_stock_quote`
returns `None` — a missing record, not a sentinel-filled one — and
`get_company_profile` returns the empty dict with no keys at all, so the
claimed total-availability contract fails for these two gateway operations. -/
theorem gateway_total_availability_cx :
    getStockQuote QuoteUpstream.raises = none ∧
    getCompanyProfile "AAPL" ProfUpstream.raises = [] :=
  ⟨rfl, rfl⟩

theorem dictSet_keys (d : List (String × Val)) (k : String) (v : Val) :
    (dictSet d k v).map Prod.fst =
      if (d.map Prod.fst).any (fun x => x == k) then d.map Prod.fst
      else d.map Prod.fst ++ [k] := by
  have hc : d.any (fun p => p.1 == k) = (d.map Prod.fst).any (fun x => x == k) := by
    induction d with
    | nil => rfl
    | cons a tl ih => simp [List.any_cons, ih]
  unfold dictSet
  rw [hc]
  by_cases h : ((d.map Prod.fst).any (fun x => x == k)) = true
  · rw [if_pos h, if_pos h, List.map_map]
    apply List.map_congr_left
    intro p _
    by_cases hpk : (p.1 == k) = true
    · simp only [Function.comp_apply, if_pos hpk]
      exact (eq_of_beq hpk).symm
    · simp only [Function.comp_apply, if_neg hpk]
  · rw [if_neg h, if_neg h, List.map_append]
    rfl

theorem getBasicFinancials_ok_keys (info : FinInfo) (e : Option (String × Int)) :
    (getBasicFinancials (FinUpstream.ok info e)).map Prod.fst =
      finSentinel.map Prod.fst ++
        ["short_pct", "short_ratio", "next_earnings", "days_to_earnings"] := by
  simp only [getBasicFinancials, dictUpdate, List.foldl_cons, List.foldl_nil]
  simp [dictSet_keys, finSentinel]

/-- **C1 (amended)**: the gateway operations never raise, and on a failing
upstream the fundamentals, performance, and ownership fetches do return
their fixed sentinel-filled records — but the failing fundamentals record
carries only the 13 base fields (the short-interest and earnings fields are
added only on success), the company profile degrades to an empty record, and
the quote degrades to a missing record (`None`) rather than a sentinel
record. -/
theorem gateway_degradation :
    getBasicFinancials FinUpstream.raises = finSentinel ∧
    (∀ kv ∈ finSentinel, kv.2 = Val.na) ∧
    getPerformanceMetrics HistUpstream.raises = perfSentinel ∧
    getAlphaIntelligence OwnershipUpstream.raises = alphaSentinel ∧
    (∀ (info : FinInfo) (e : Option (String × Int)),
      (getBasicFinancials (FinUpstream.ok info e)).map Prod.fst =
        finSentinel.map Prod.fst ++
          ["short_pct", "short_ratio", "next_earnings", "days_to_earnings"]) ∧
    (∀ t : String, getCompanyProfile t ProfUpstream.raises = []) ∧
    getStockQuote QuoteUpstream.raises = none := by
  exact ⟨rfl, by decide, rfl, rfl, fun info e => getBasicFinancials_ok_keys info e,
    fun t => rfl, rfl⟩

/-- **C5 counterexample**: on the 3-sample series `100, 110, 121` the code
leaves the 5-day return at the `'N/A'` sentinel, while the claimed
oldest-sample fallback would give `(121/100 - 1) * 100 = 21`. -/
theorem performance_window_cx :
    (getPerformanceMetrics
      (HistUpstream.ok [(100, 5), (110, 6), (121, 7)])).fiveDayPct = none ∧
    specFiveDayReturn [100, 110, 121] = 21 := by
  refine ⟨rfl, ?_⟩
  show ((121 : Rat) / 100 - 1) * 100 = 21
  norm_num

/-- **C5 (amended)**: with at least 6 samples the 5-day return is
`(latest / closes[-6] - 1) * 100`; with 2 to 5 samples it is the `'N/A'`
sentinel (there is no oldest-sample fallback); the 1-month return always
divides by the oldest sample of the window; and fewer than 2 samples give
the all-sentinel record. -/
theorem performance_window (rows : List (Rat × Rat)) :
    (rows.length < 2 →
      getPerformanceMetrics (HistUpstream.ok rows) = perfSentinel) ∧
    (2 ≤ rows.length →
      (getPerformanceMetrics (HistUpstream.ok rows)).oneMonthPct =
        some (((rows.map Prod.fst).getLastD 0 / (rows.map Prod.fst).headD 0 - 1) * 100) ∧
      (getPerformanceMetrics (HistUpstream.ok rows)).currVol =
        some ((rows.map Prod.snd).getLastD 0)) ∧
    (6 ≤ rows.length →
      (getPerformanceMetrics (HistUpstream.ok rows)).fiveDayPct =
        some (((rows.map Prod.fst).getLastD 0 /
          (rows.map Prod.fst).getD (rows.length - 6) 0 - 1) * 100)) ∧
    (2 ≤ rows.length → rows.length < 6 →
      (getPerformanceMetrics (HistUpstream.ok rows)).fiveDayPct = none) := by
  have hlen : (rows.map Prod.fst).length = rows.length := List.length_map rows Prod.fst
  refine ⟨fun h => ?_, fun h => ?_, fun h => ?_, fun h2 h6 => ?_⟩
  · simp only [getPerformanceMetrics]
    rw [if_pos h]
  · simp only [getPerformanceMetrics]
    rw [if_neg (by omega)]
    exact ⟨rfl, rfl⟩
  · simp only [getPerformanceMetrics]
    rw [if_neg (by omega)]
    dsimp only
    rw [hlen, if_pos h]
  · simp only [getPerformanceMetrics]
    rw [if_neg (by omega)]
    dsimp only
    rw [hlen, if_neg (by omega)]

/-- **C5 witness**: six samples `100 … 110` give a 5-day return of
`(110/100 - 1) * 100 = 10`. -/
theorem performance_window_witness :
    (getPerformanceMetrics (HistUpstream.ok
      [(100, 1), (102, 1), (104, 1), (106, 1), (108, 1), (110, 1)])).fiveDayPct =
      some 10 := by
  have h := (performance_window
    [(100, 1), (102, 1), (104, 1), (106, 1), (108, 1), (110, 1)]).2.2.1 (by norm_num)
  rw [h]
  exact congrArg some (by norm_num : ((110 : Rat) / 100 - 1) * 100 = 10)

/-- **C6 counterexample**: a snapshot of the bare symbol `TCS` makes no
resolver call and no gateway query — it replies with the market-selection
keyboard — and completing it through the NSE callback queries the gateway
with `TCS.NS`, a suffix applied by the callback handler rather than an
output of the Ticker Resolver; the combined trace contains no resolver call
at all. -/
theorem resolver_before_gateway_cx :
    (handleAnalyse "TCS" false).1 = [] ∧
    (handleAnalyse "TCS" false).2 =
      AnalyseReply.marketPrompt "TCS" ["market:NSE:TCS", "market:US:TCS"] ∧
    (handleMarketCallback "NSE" "TCS").1.head? =
      some (AnalyseCall.gatewayCall FetchOp.basicFinancials "TCS.NS") ∧
    (∀ c ∈ (handleAnalyse "TCS" false).1 ++ (handleMarketCallback "NSE" "TCS").1,
      isResolverCall c = false) := by
  decide

/-- **C6 (amended)**: ticker-oriented snapshot commands never invoke the
Ticker Resolver.  A bare symbol (no market suffix, no skip flag) receives
the market-selection prompt with no provider query at all; a suffixed or
callback-resolved ticker is passed directly to the six provider fetches in
source order; and no trace of `handle_analyse` contains a resolver call. -/
theorem analyse_never_resolves (raw : String) (skip : Bool) :
    ((skip = false ∧ pyEndsWith (pyStrip (pyUpper raw)) ".NS" = false ∧
        pyEndsWith (pyStrip (pyUpper raw)) ".BO" = false) →
      handleAnalyse raw skip =
        ([], .marketPrompt (pyStrip (pyUpper raw))
          ["market:NSE:" ++ pyStrip (pyUpper raw),
           "market:US:" ++ pyStrip (pyUpper raw)])) ∧
    ((skip = true ∨ pyEndsWith (pyStrip (pyUpper raw)) ".NS" = true ∨
        pyEndsWith (pyStrip (pyUpper raw)) ".BO" = true) →
      (handleAnalyse raw skip).1 =
        [.gatewayCall .basicFinancials (pyStrip (pyUpper raw)),
         .gatewayCall .stockQuote (pyStrip (pyUpper raw)),
         .gatewayCall .companyProfile (pyStrip (pyUpper raw)),
         .gatewayCall .companyNews (pyStrip (pyUpper raw)),
         .gatewayCall .performanceMetrics (pyStrip (pyUpper raw)),
         .gatewayCall .alphaIntel (pyStrip (pyUpper raw))]) ∧
    (∀ c ∈ (handleAnalyse raw skip).1, isResolverCall c = false) := by
  refine ⟨fun ⟨hs, hns, hbo⟩ => ?_, fun h => ?_, ?_⟩
  · simp [handleAnalyse, hs, hns, hbo]
  · rcases h with h | h | h <;> simp [handleAnalyse, h]
  · by_cases h1 : skip = true <;>
      by_cases h2 : pyEndsWith (pyStrip (pyUpper raw)) ".NS" = true <;>
      by_cases h3 : pyEndsWith (pyStrip (pyUpper raw)) ".BO" = true <;>
      simp [handleAnalyse, h1, h2, h3, isResolverCall]

/-- **C6 witness**: the already-suffixed ticker `TCS.NS` goes straight to
the six provider fetches. -/
theorem analyse_never_resolves_witness :
    (handleAnalyse "TCS.NS" false).1 =
      [.gatewayCall .basicFinancials "TCS.NS",
       .gatewayCall .stockQuote "TCS.NS",
       .gatewayCall .companyProfile "TCS.NS",
       .gatewayCall .companyNews "TCS.NS",
       .gatewayCall .performanceMetrics "TCS.NS",
       .gatewayCall .alphaIntel "TCS.NS"] :=
  ((analyse_never_resolves "TCS.NS" false).2.1 (by decide)).trans (by decide)

end StockMonitor
